import Mathlib

/-
  Verification development for the crypto-trader-sim repository.

  The TypeScript sources are shallowly embedded: every numeric computation is
  modelled over a linear ordered field `K` (instantiated at ℚ where concrete
  evaluation is needed, and at ℝ for the simulator, whose Bollinger-band
  indicator uses a real square root).  JS `Date.now()` timestamps are passed
  explicitly as a `now : Int` parameter.  String formatting of numbers inside
  log/reason strings is not modelled; reason strings keep their static,
  branch-identifying descriptors.
-/

namespace CryptoSim

/-- BUY / SELL / HOLD signal values (TS string union). -/
inductive Sig
  | BUY
  | SELL
  | HOLD
deriving DecidableEq, BEq

/-- One OHLCV candle (src/types).  `open` is a Lean keyword, hence `openPrice`. -/
structure OHLCV (K : Type) where
  timestamp : Int
  openPrice : K
  high : K
  low : K
  close : K
  volume : K
deriving DecidableEq

/-- Raw value payload of an indicator result (TS: number or small record). -/
inductive IndicatorValue (K : Type)
  | scalar (value : K)
  | macd (macd signal histogram : K)
  | bands (upper middle lower pctB : K)
  | volume (ratio avgVolume currentVolume : K)
  | mas (sma20 sma50 price : K)
deriving DecidableEq

/-- Output of one indicator (src/types IndicatorResult). -/
structure IndicatorResult (K : Type) where
  name : String
  value : IndicatorValue K
  signal : Sig
  strength : K
  reason : String
deriving DecidableEq

/-- Per-strategy configuration (src/strategies/strategies.ts). -/
structure StrategyConfig (K : Type) where
  name : String
  description : String
  indicators : List String
  buyThreshold : K
  sellThreshold : K
  maxPositionPct : K
  stopLossPct : K
  takeProfitPct : K
deriving DecidableEq

/-- The three strategy preset names. -/
inductive StrategyName
  | conservative
  | balanced
  | aggressive
deriving DecidableEq

variable {K : Type}

/-- The STRATEGIES table of src/strategies/strategies.ts. -/
def STRATEGIES (K : Type) [LinearOrderedField K] : StrategyName → StrategyConfig K
  | .conservative =>
    { name := "conservative"
      description := "Low risk"
      indicators := ["RSI", "MACD", "BollingerBands", "MovingAverages", "Volume"]
      buyThreshold := 60
      sellThreshold := -60
      maxPositionPct := 20
      stopLossPct := 5
      takeProfitPct := 10 }
  | .balanced =>
    { name := "balanced"
      description := "Medium risk"
      indicators := ["RSI", "MACD", "BollingerBands", "MovingAverages"]
      buyThreshold := 40
      sellThreshold := -40
      maxPositionPct := 33
      stopLossPct := 8
      takeProfitPct := 15 }
  | .aggressive =>
    { name := "aggressive"
      description := "High risk"
      indicators := ["RSI", "MACD", "BollingerBands"]
      buyThreshold := 25
      sellThreshold := -25
      maxPositionPct := 50
      stopLossPct := 12
      takeProfitPct := 25 }

/-- A scored trade signal (src/types TradeSignal); `score` is the rounded
integer consensus score. -/
structure TradeSignal (K : Type) where
  coin : String
  signal : Sig
  score : Int
  reasons : List String
  indicators : List (IndicatorResult K)
  timestamp : Int
  price : K
deriving DecidableEq

/-- An open position (src/types Position). -/
structure Position (K : Type) where
  coin : String
  entryPrice : K
  quantity : K
  entryTime : Int
  currentPrice : Option K := none
  pnl : Option K := none
  pnlPercent : Option K := none
deriving DecidableEq

/-- A recorded trade (src/types Trade). -/
structure Trade (K : Type) where
  id : String
  coin : String
  side : Sig
  price : K
  quantity : K
  total : K
  timestamp : Int
  reason : String
  indicators : List String
deriving DecidableEq

/-- The portfolio state (src/types Portfolio). -/
structure Portfolio (K : Type) where
  capital : K
  initialCapital : K
  positions : List (Position K)
  trades : List (Trade K)
  totalPnl : K
  totalPnlPercent : K
  lastUpdated : Int
deriving DecidableEq

/-- Fresh portfolio, as built by `loadPortfolio` when no saved state exists
(part_005 lines 20-28) and by the simulator reset (part_003 lines 28-36). -/
def freshPortfolio [LinearOrderedField K] (initialCapital : K) (now : Int) : Portfolio K :=
  { capital := initialCapital
    initialCapital := initialCapital
    positions := []
    trades := []
    totalPnl := 0
    totalPnlPercent := 0
    lastUpdated := now }

/-- JS expression `pos.currentPrice || pos.entryPrice`: `undefined` and `0` are
both falsy, so a zero current price falls back to the entry price. -/
def Position.currentOrEntry [LinearOrderedField K] [DecidableEq K] (pos : Position K) : K :=
  match pos.currentPrice with
  | some cp => if cp = 0 then pos.entryPrice else cp
  | none => pos.entryPrice

/-- `positions.reduce((sum, pos) => sum + pos.quantity * (pos.currentPrice || pos.entryPrice), 0)`. -/
def positionsValue [LinearOrderedField K] [DecidableEq K] (ps : List (Position K)) : K :=
  ps.foldl (fun sum pos => sum + pos.quantity * pos.currentOrEntry) 0

/-- The `// Update totals` block at the end of `executeTrade`
(part_005 lines 135-140). -/
def updateTotals [LinearOrderedField K] [DecidableEq K] (p : Portfolio K) (now : Int) : Portfolio K :=
  let totalValue := p.capital + positionsValue p.positions
  let totalPnl := totalValue - p.initialCapital
  { p with
      totalPnl := totalPnl
      totalPnlPercent := (totalPnl / p.initialCapital) * 100
      lastUpdated := now }

/-- One iteration of the stop-loss / take-profit sweep of `executeTrade`
(part_005 lines 107-133), examining position index `i`.  The JS guard
`if (pos.currentPrice)` is a truthiness test, so a zero price is skipped. -/
def stopCheckAt [LinearOrderedField K] [DecidableEq K] (strategy : StrategyConfig K)
    (now : Int) (p : Portfolio K) (i : Nat) : Portfolio K :=
  match p.positions.get? i with
  | none => p
  | some pos =>
    match pos.currentPrice with
    | none => p
    | some cp =>
      if cp = 0 then p
      else
        let pnlPct := ((cp - pos.entryPrice) / pos.entryPrice) * 100
        if pnlPct ≤ -strategy.stopLossPct then
          let amount := pos.quantity * cp
          { p with
              capital := p.capital + amount
              trades := p.trades ++ [{ id := "T" ++ toString now, coin := pos.coin
                                       side := Sig.SELL, price := cp, quantity := pos.quantity
                                       total := amount, timestamp := now
                                       reason := "Stop-loss", indicators := [] }]
              positions := p.positions.eraseIdx i }
        else if strategy.takeProfitPct ≤ pnlPct then
          let amount := pos.quantity * cp
          { p with
              capital := p.capital + amount
              trades := p.trades ++ [{ id := "T" ++ toString now, coin := pos.coin
                                       side := Sig.SELL, price := cp, quantity := pos.quantity
                                       total := amount, timestamp := now
                                       reason := "Take-profit", indicators := [] }]
              positions := p.positions.eraseIdx i }
        else p

/-- The downward `for (let i = positions.length - 1; i >= 0; i--)` sweep:
`stopSweep strategy now n p` processes indices `n-1, n-2, ..., 0`.  Removal at
index `i` only shifts elements above `i`, which were already processed, so the
lower indices examined later are unaffected — exactly the JS behaviour. -/
def stopSweep [LinearOrderedField K] [DecidableEq K] (strategy : StrategyConfig K)
    (now : Int) : Nat → Portfolio K → Portfolio K
  | 0, p => p
  | i + 1, p => stopSweep strategy now i (stopCheckAt strategy now p i)

/-- Shared tail of the non-early-return paths of `executeTrade`: the stop-loss /
take-profit sweep followed by the totals recompute. -/
def finishTrade [LinearOrderedField K] [DecidableEq K] (p : Portfolio K)
    (strategy : StrategyConfig K) (now : Int) : Portfolio K :=
  updateTotals (stopSweep strategy now p.positions.length p) now

/-- `executeTrade` (part_005 lines 37-143).  The JS function first shallow-copies
the portfolio and mutates only the copy; the pure embedding returns the new
state.  The three `return p` branches (BUY while already holding the coin,
BUY with spendable amount below 1, SELL without a position) leave the state
unchanged and — being early returns — skip both the stop-loss / take-profit
sweep and the totals recompute. -/
def executeTrade [LinearOrderedField K] [DecidableEq K] (portfolio : Portfolio K)
    (signal : TradeSignal K) (strategy : StrategyConfig K) (now : Int) : Portfolio K :=
  if signal.signal = Sig.BUY then
    if (portfolio.positions.find? (fun pos => pos.coin == signal.coin)).isSome then
      portfolio
    else
      let maxAmount := portfolio.capital * (strategy.maxPositionPct / 100)
      let amount := min maxAmount (portfolio.capital * (95 / 100))
      if amount < 1 then
        portfolio
      else
        let quantity := amount / signal.price
        let p1 : Portfolio K :=
          { portfolio with
              capital := portfolio.capital - amount
              positions := portfolio.positions ++
                [{ coin := signal.coin, entryPrice := signal.price
                   quantity := quantity, entryTime := signal.timestamp }]
              trades := portfolio.trades ++
                [{ id := "T" ++ toString now, coin := signal.coin, side := Sig.BUY
                   price := signal.price, quantity := quantity, total := amount
                   timestamp := signal.timestamp
                   reason := String.intercalate "; " signal.reasons
                   indicators := signal.indicators.map (fun i => i.name) }] }
        finishTrade p1 strategy now
  else if signal.signal = Sig.SELL then
    match portfolio.positions.findIdx? (fun pos => pos.coin == signal.coin) with
    | none => portfolio
    | some posIdx =>
      match portfolio.positions.get? posIdx with
      | none => portfolio
      | some pos =>
        let amount := pos.quantity * signal.price
        let p1 : Portfolio K :=
          { portfolio with
              capital := portfolio.capital + amount
              positions := portfolio.positions.eraseIdx posIdx
              trades := portfolio.trades ++
                [{ id := "T" ++ toString now, coin := signal.coin, side := Sig.SELL
                   price := signal.price, quantity := pos.quantity, total := amount
                   timestamp := signal.timestamp
                   reason := String.intercalate "; " signal.reasons
                   indicators := signal.indicators.map (fun i => i.name) }] }
        finishTrade p1 strategy now
  else
    finishTrade portfolio strategy now

/-! ## Indicator library (src/indicators/technical.ts) -/

/-- JS `array.slice(-n)`: the last `n` elements (all of them when `n` exceeds
the length). -/
def lastN {α : Type} (n : Nat) (l : List α) : List α :=
  l.drop (l.length - n)

/-- `calcSMA` (technical.ts lines 8-15): windowed means, one entry per window
start `k`, matching the JS loop index `i = k + period - 1`. -/
def calcSMA [LinearOrderedField K] (prices : List K) (period : Nat) : List K :=
  (List.range (prices.length + 1 - period)).map
    (fun k => ((prices.drop k).take period).foldl (· + ·) 0 / (period : K))

/-- `calcEMA` (technical.ts lines 17-24): seeds from the first price and
recurses with smoothing factor `k = 2/(period+1)`.  (JS applied to an empty
array would yield `[undefined]`; the embedding returns `[]`, and every caller
guards against short inputs.) -/
def calcEMA [LinearOrderedField K] (prices : List K) (period : Nat) : List K :=
  let k := 2 / ((period : K) + 1)
  match prices with
  | [] => []
  | p :: rest => List.scanl (fun prev x => x * k + prev * (1 - k)) p rest

/-- `prices.slice(1).map((p, i) => p - prices[i])`: consecutive deltas. -/
def priceChanges [LinearOrderedField K] (prices : List K) : List K :=
  List.zipWith (fun a b => b - a) prices prices.tail

/-- The numeric RSI of `calcRSI` (technical.ts lines 26-43): simple averages of
gains/losses over the first `period` deltas, then Wilder smoothing; RS is 100
when the average loss is zero.  Meaningful for `period + 1 ≤ prices.length`
(shorter inputs read past the array in JS). -/
def rsiRaw [LinearOrderedField K] (prices : List K) (period : Nat) : K :=
  let changes := priceChanges prices
  let seeded := (changes.take period).foldl
    (fun gl c => if 0 < c then (gl.1 + c, gl.2) else (gl.1, gl.2 + |c|)) ((0 : K), (0 : K))
  let avg0 := (seeded.1 / (period : K), seeded.2 / (period : K))
  let avgs := (changes.drop period).foldl
    (fun gl c =>
      ((gl.1 * ((period : K) - 1) + (if 0 < c then c else 0)) / (period : K),
       (gl.2 * ((period : K) - 1) + (if c < 0 then |c| else 0)) / (period : K))) avg0
  let rs := if avgs.2 = 0 then 100 else avgs.1 / avgs.2
  100 - (100 / (1 + rs))

/-- `calcRSI` (technical.ts lines 26-56) including the signal classification. -/
def calcRSI [LinearOrderedField K] [DecidableEq K] (prices : List K)
    (period : Nat := 14) : IndicatorResult K :=
  let rsi := rsiRaw prices period
  let value := IndicatorValue.scalar rsi
  if rsi < 30 then
    { name := "RSI", value := value, signal := .BUY, strength := 80, reason := "RSI — Oversold" }
  else if rsi < 40 then
    { name := "RSI", value := value, signal := .BUY, strength := 60
      reason := "RSI — Approaching oversold" }
  else if 70 < rsi then
    { name := "RSI", value := value, signal := .SELL, strength := 80, reason := "RSI — Overbought" }
  else if 60 < rsi then
    { name := "RSI", value := value, signal := .SELL, strength := 60
      reason := "RSI — Approaching overbought" }
  else
    { name := "RSI", value := value, signal := .HOLD, strength := 50, reason := "RSI — Neutral" }

/-- `calcMACD` (technical.ts lines 58-83). -/
def calcMACD [LinearOrderedField K] [DecidableEq K] (prices : List K) : IndicatorResult K :=
  let ema12 := calcEMA prices 12
  let ema26 := calcEMA prices 26
  let macdLine := List.zipWith (fun a b => a - b) ema12 ema26
  let signalLine := calcEMA macdLine 9
  let histogram := List.zipWith (fun a b => a - b) macdLine signalLine
  let current := (histogram.getLast?).getD 0
  let prev := (histogram.get? (histogram.length - 2)).getD 0
  let value := IndicatorValue.macd ((macdLine.getLast?).getD 0) ((signalLine.getLast?).getD 0) current
  if 0 < current ∧ prev ≤ 0 then
    { name := "MACD", value := value, signal := .BUY, strength := 85
      reason := "MACD — Bullish crossover" }
  else if current < 0 ∧ 0 ≤ prev then
    { name := "MACD", value := value, signal := .SELL, strength := 85
      reason := "MACD — Bearish crossover" }
  else if 0 < current ∧ prev < current then
    { name := "MACD", value := value, signal := .BUY, strength := 60
      reason := "MACD — Bullish momentum" }
  else if current < 0 ∧ current < prev then
    { name := "MACD", value := value, signal := .SELL, strength := 60
      reason := "MACD — Bearish momentum" }
  else
    { name := "MACD", value := value, signal := .HOLD, strength := 50, reason := "MACD — Neutral" }

/-- Middle Bollinger band: the last entry of `calcSMA(prices, period)`
(technical.ts lines 86-87). -/
def bbMiddle [LinearOrderedField K] (prices : List K) (period : Nat) : K :=
  ((calcSMA prices period).getLast?).getD 0

/-- Population standard deviation of the last `period` prices around the middle
band (technical.ts lines 88-90). -/
noncomputable def bbSd (prices : List ℝ) (period : Nat) : ℝ :=
  let lastSMA := bbMiddle prices period
  let recentPrices := lastN period prices
  let variance := (recentPrices.foldl (fun sum p => sum + (p - lastSMA) ^ 2) 0) / (period : ℝ)
  Real.sqrt variance

/-- The last price, `prices[prices.length - 1]` (technical.ts line 94). -/
def bbCurrent [LinearOrderedField K] (prices : List K) : K :=
  (prices.getLast?).getD 0

/-- Bollinger %B, `(current - lower) / (upper - lower)` (technical.ts
lines 92-95). -/
noncomputable def bbPctB (prices : List ℝ) (period : Nat) (stdDev : ℝ) : ℝ :=
  let middle := bbMiddle prices period
  let sd := bbSd prices period
  let upper := middle + stdDev * sd
  let lower := middle - stdDev * sd
  (bbCurrent prices - lower) / (upper - lower)

/-- `calcBollingerBands` (technical.ts lines 85-112). -/
noncomputable def calcBollingerBands (prices : List ℝ) (period : Nat := 20)
    (stdDev : ℝ := 2) : IndicatorResult ℝ :=
  let middle := bbMiddle prices period
  let sd := bbSd prices period
  let upper := middle + stdDev * sd
  let lower := middle - stdDev * sd
  let pctB := bbPctB prices period stdDev
  let value := IndicatorValue.bands upper middle lower pctB
  if pctB < 0 then
    { name := "BollingerBands", value := value, signal := .BUY, strength := 85
      reason := "BB — Below lower band" }
  else if pctB < 1/5 then
    { name := "BollingerBands", value := value, signal := .BUY, strength := 65
      reason := "BB — Near lower band" }
  else if 1 < pctB then
    { name := "BollingerBands", value := value, signal := .SELL, strength := 85
      reason := "BB — Above upper band" }
  else if 4/5 < pctB then
    { name := "BollingerBands", value := value, signal := .SELL, strength := 65
      reason := "BB — Near upper band" }
  else
    { name := "BollingerBands", value := value, signal := .HOLD, strength := 50
      reason := "BB — Within bands" }

/-- `calcVolumeSignal` (technical.ts lines 114-132). -/
def calcVolumeSignal [LinearOrderedField K] [DecidableEq K]
    (candles : List (OHLCV K)) : IndicatorResult K :=
  let volumes := candles.map (fun c => c.volume)
  let avgVolume := ((lastN 20 volumes).foldl (· + ·) 0) / 20
  let currentVolume := (volumes.getLast?).getD 0
  let ratio := currentVolume / avgVolume
  let lastClose := ((candles.getLast?).map (fun c => c.close)).getD 0
  let prevClose := ((candles.get? (candles.length - 2)).map (fun c => c.close)).getD 0
  let priceChange := (lastClose - prevClose) / prevClose
  let value := IndicatorValue.volume ratio avgVolume currentVolume
  if 2 < ratio ∧ 2/100 < priceChange then
    { name := "Volume", value := value, signal := .BUY, strength := 75
      reason := "Volume — High volume + price up" }
  else if 2 < ratio ∧ priceChange < -(2/100) then
    { name := "Volume", value := value, signal := .SELL, strength := 75
      reason := "Volume — High volume + price down" }
  else if 3/2 < ratio ∧ 0 < priceChange then
    { name := "Volume", value := value, signal := .BUY, strength := 55
      reason := "Volume — Above avg volume + up" }
  else if 3/2 < ratio ∧ priceChange < 0 then
    { name := "Volume", value := value, signal := .SELL, strength := 55
      reason := "Volume — Above avg volume + down" }
  else
    { name := "Volume", value := value, signal := .HOLD, strength := 50
      reason := "Volume — Normal volume" }

/-- `calcMovingAverages` (technical.ts lines 134-156).  The SMA50 window shrinks
to the available length when fewer than 50 prices exist. -/
def calcMovingAverages [LinearOrderedField K] [DecidableEq K]
    (prices : List K) : IndicatorResult K :=
  let sma20 := calcSMA prices 20
  let sma50 := calcSMA prices (min 50 prices.length)
  let current := (prices.getLast?).getD 0
  let lastSMA20 := (sma20.getLast?).getD 0
  let lastSMA50 := (sma50.getLast?).getD 0
  let value := IndicatorValue.mas lastSMA20 lastSMA50 current
  if lastSMA20 < current ∧ lastSMA50 < lastSMA20 then
    { name := "MovingAverages", value := value, signal := .BUY, strength := 70
      reason := "MA — Price > SMA20 > SMA50 (uptrend)" }
  else if current < lastSMA20 ∧ lastSMA20 < lastSMA50 then
    { name := "MovingAverages", value := value, signal := .SELL, strength := 70
      reason := "MA — Price < SMA20 < SMA50 (downtrend)" }
  else if lastSMA20 < current then
    { name := "MovingAverages", value := value, signal := .BUY, strength := 55
      reason := "MA — Above SMA20" }
  else if current < lastSMA20 then
    { name := "MovingAverages", value := value, signal := .SELL, strength := 55
      reason := "MA — Below SMA20" }
  else
    { name := "MovingAverages", value := value, signal := .HOLD, strength := 50
      reason := "MA — Price vs SMA20" }

/-! ## Strategy scorer (src/strategies/strategies.ts) -/

/-- `analyzeIndicators` (strategies.ts lines 43-68): runs only the indicators
named in the strategy, each only when its minimum sample size is met.  It is
ℝ-valued because the Bollinger computation takes a real square root. -/
noncomputable def analyzeIndicators (candles : List (OHLCV ℝ))
    (strategy : StrategyConfig ℝ) : List (IndicatorResult ℝ) :=
  let closes := candles.map (fun c => c.close)
  (if "RSI" ∈ strategy.indicators ∧ 15 ≤ closes.length then [calcRSI closes 14] else []) ++
  (if "MACD" ∈ strategy.indicators ∧ 27 ≤ closes.length then [calcMACD closes] else []) ++
  (if "BollingerBands" ∈ strategy.indicators ∧ 21 ≤ closes.length then
    [calcBollingerBands closes 20 2] else []) ++
  (if "Volume" ∈ strategy.indicators ∧ 21 ≤ candles.length then
    [calcVolumeSignal candles] else []) ++
  (if "MovingAverages" ∈ strategy.indicators ∧ 21 ≤ closes.length then
    [calcMovingAverages closes] else [])

/-- `computeSignal` (strategies.ts lines 70-99): maps BUY/SELL/HOLD to
+1, -1 and 0, weighs by strength, averages over the computed indicators (0 with no
indicators) and applies the strategy thresholds.  `score` is the JS
`Math.round` of the average, i.e. `⌊avg + 1/2⌋`. -/
def computeSignal [LinearOrderedField K] [FloorRing K] (coin : String) (price : K)
    (indicators : List (IndicatorResult K)) (strategy : StrategyConfig K)
    (now : Int) : TradeSignal K :=
  let totalScore := indicators.foldl
    (fun acc ind =>
      acc + (match ind.signal with
             | Sig.BUY => (1 : K)
             | Sig.SELL => -1
             | Sig.HOLD => 0) * ind.strength) 0
  let reasons := indicators.map (fun ind => ind.reason)
  let avgScore := if 0 < indicators.length then totalScore / (indicators.length : K) else 0
  let finalSignal :=
    if strategy.buyThreshold ≤ avgScore then Sig.BUY
    else if avgScore ≤ strategy.sellThreshold then Sig.SELL
    else Sig.HOLD
  { coin := coin, signal := finalSignal, score := ⌊avgScore + 1/2⌋, reasons := reasons
    indicators := indicators, timestamp := now, price := price }

/-! ## Win rate (part_003 lines 107-113) -/

/-- The most recent BUY trade for `coin` strictly before index `i`:
`arr.slice(0, i).reverse().find(b => b.coin === t.coin && b.side === 'BUY')`. -/
def priorBuy (arr : List (Trade K)) (i : Nat) (coin : String) : Option (Trade K) :=
  (arr.take i).reverse.find? (fun b => b.coin == coin && decide (b.side = Sig.BUY))

/-- The win predicate of the `wins` filter callback: a SELL whose price strictly
exceeds the most recent prior BUY price for the same coin. -/
def tradeIsWin [LinearOrderedField K] (arr : List (Trade K)) (i : Nat) (t : Trade K) : Bool :=
  decide (t.side = Sig.SELL) &&
    (match priorBuy arr i t.coin with
     | some b => decide (b.price < t.price)
     | none => false)

/-- `portfolio.trades.filter((t, i, arr) => ...)`: the winning SELL trades. -/
def winningTrades [LinearOrderedField K] (arr : List (Trade K)) : List (Trade K) :=
  (arr.enum.filter (fun p => tradeIsWin arr p.1 p.2)).map (fun p => p.2)

/-- `portfolio.trades.filter(t => t.side === 'SELL')`. -/
def sellTrades (arr : List (Trade K)) : List (Trade K) :=
  arr.filter (fun t => decide (t.side = Sig.SELL))

/-- The reported win rate: `wins / sells * 100`, or 0 with no SELL trades. -/
def winRate [LinearOrderedField K] (arr : List (Trade K)) : K :=
  if 0 < (sellTrades arr).length then
    (((winningTrades arr).length : K) / ((sellTrades arr).length : K)) * 100
  else 0

/-- Spec-side reading of the win condition at index `i`: the trade is a SELL and
there is a prior BUY trade for the same coin, no BUY for that coin lies between
it and the SELL, and the SELL price strictly exceeds that BUY price (an equal
price is a loss). -/
def isWinningIndex [LinearOrderedField K] (arr : List (Trade K)) (i : Nat) : Prop :=
  ∃ t, arr.get? i = some t ∧ t.side = Sig.SELL ∧
    ∃ j b, j < i ∧ arr.get? j = some b ∧ b.side = Sig.BUY ∧ b.coin = t.coin ∧
      b.price < t.price ∧
      ∀ k b', j < k → k < i → arr.get? k = some b' →
        ¬(b'.side = Sig.BUY ∧ b'.coin = t.coin)

open Classical in
/-- Spec-side count of winning SELL indices. -/
noncomputable def winCountSpec [LinearOrderedField K] (arr : List (Trade K)) : Nat :=
  (List.range arr.length).countP (fun i => decide (isWinningIndex arr i))

/-! ## Backtest driver (part_003 `runSimulation`) -/

/-- Simulation request (src/types SimulationConfig). -/
structure SimulationConfig where
  strategy : StrategyName
  initialCapital : ℝ
  coins : List String
  durationDays : Nat

/-- Simulation report (src/types SimulationResult).  The ISO date strings of the
TS record are modelled as millisecond timestamps; the constant disclaimer text
is not modelled. -/
structure SimulationResult where
  config : SimulationConfig
  portfolio : Portfolio ℝ
  signals : List (TradeSignal ℝ)
  startTime : Int
  endTime : Int
  totalReturn : ℝ
  totalReturnPct : ℝ
  maxDrawdown : ℝ
  winRate : ℝ
  totalTrades : Nat

/-- Mutable state of the candle-replay loop. -/
structure SimState where
  portfolio : Portfolio ℝ
  signals : List (TradeSignal ℝ)
  maxValue : ℝ
  maxDrawdown : ℝ

/-- The indices visited by `for (let i = start; i < stop; i += step)`. -/
def loopIndices (start stop step : Nat) : List Nat :=
  (List.range ((stop - start + step - 1) / step)).map (fun k => start + k * step)

/-- Per-coin body of the replay loop (part_003 lines 71-89): slice the history
up to index `i`, refresh the held position's price, score, and apply the signal
through the ledger. -/
noncomputable def simCoinStep (coinData : String → List (OHLCV ℝ))
    (strategy : StrategyConfig ℝ) (now : Int) (i : Nat)
    (st : Portfolio ℝ × List (TradeSignal ℝ)) (coin : String) :
    Portfolio ℝ × List (TradeSignal ℝ) :=
  let candles := (coinData coin).take (i + 1)
  if candles.length < 30 then st
  else
    let currentPrice := ((candles.getLast?).map (fun c => c.close)).getD 0
    let portfolio :=
      { st.1 with
          positions := st.1.positions.map (fun pos =>
            if pos.coin == coin then { pos with currentPrice := some currentPrice } else pos) }
    let indicators := analyzeIndicators (lastN 60 candles) strategy
    let signal := computeSignal coin currentPrice indicators strategy now
    (executeTrade portfolio signal strategy now, st.2 ++ [signal])

/-- One full round of the replay loop at sampled index `i`, followed by the
drawdown update (part_003 lines 70-98). -/
noncomputable def simRound (config : SimulationConfig)
    (coinData : String → List (OHLCV ℝ)) (strategy : StrategyConfig ℝ)
    (now : Int) (st : SimState) (i : Nat) : SimState :=
  let stepped := config.coins.foldl (simCoinStep coinData strategy now i)
    (st.portfolio, st.signals)
  let totalValue := stepped.1.capital + positionsValue stepped.1.positions
  let maxValue := max st.maxValue totalValue
  let drawdown := ((maxValue - totalValue) / maxValue) * 100
  { portfolio := stepped.1, signals := stepped.2, maxValue := maxValue
    maxDrawdown := max st.maxDrawdown drawdown }

/-- Final report assembly (part_003 lines 100-129): last totals recompute, win
rate, trailing 20 signals. -/
noncomputable def finishSimulation (config : SimulationConfig) (now : Int)
    (p : Portfolio ℝ) (signals : List (TradeSignal ℝ))
    (maxDrawdown : ℝ) : SimulationResult :=
  let totalValue := p.capital + positionsValue p.positions
  let portfolio :=
    { p with
        totalPnl := totalValue - config.initialCapital
        totalPnlPercent := ((totalValue - config.initialCapital) / config.initialCapital) * 100 }
  { config := config, portfolio := portfolio, signals := lastN 20 signals
    startTime := now - (config.durationDays : Int) * 86400000, endTime := now
    totalReturn := portfolio.totalPnl, totalReturnPct := portfolio.totalPnlPercent
    maxDrawdown := maxDrawdown, winRate := winRate portfolio.trades
    totalTrades := portfolio.trades.length }

/-- `runSimulation` (part_003 lines 21-130).  The data fetched per coin is the
collaborator input `coinData` (a failed fetch contributes `[]`, as in the
`catch` branch).  With no requested coins, JS `Math.min()` is `+Infinity`: the
30-candle check passes and the single loop round touches nothing, so that case
is modelled as zero rounds.  A fresh portfolio replaces any loaded state before
the data check, so the error is raised before any ledger transition. -/
noncomputable def runSimulation (config : SimulationConfig)
    (coinData : String → List (OHLCV ℝ)) (now : Int) :
    Except String SimulationResult :=
  let strategy := STRATEGIES ℝ config.strategy
  let portfolio0 : Portfolio ℝ := freshPortfolio config.initialCapital now
  let lengths := config.coins.map (fun c => (coinData c).length)
  match lengths.min? with
  | none =>
    Except.ok (finishSimulation config now portfolio0 [] 0)
  | some minCandles =>
    if minCandles < 30 then Except.error "Insufficient historical data"
    else
      let warmup := 30
      let startIdx := warmup
      let endIdx := minCandles
      let step := max 1 ((endIdx - startIdx) / (config.durationDays * 6))
      let final := (loopIndices startIdx endIdx step).foldl
        (simRound config coinData strategy now)
        { portfolio := portfolio0, signals := [], maxValue := config.initialCapital
          maxDrawdown := 0 }
      Except.ok (finishSimulation config now final.portfolio final.signals final.maxDrawdown)

/-! ## Ledger invariants -/

/-- The capital-conservation quantity of spec section 8:
`capital + Σ(open position market value) = initialCapital + totalPnl`, with the
market value falling back to the entry price when no live price is known.  Over
ℚ the equality is exact, which implies the spec's floating-point tolerance. -/
def capitalInvariant [LinearOrderedField K] [DecidableEq K] (p : Portfolio K) : Prop :=
  p.capital + positionsValue p.positions = p.initialCapital + p.totalPnl

instance [LinearOrderedField K] [DecidableEq K] (p : Portfolio K) :
    Decidable (capitalInvariant p) := by
  unfold capitalInvariant; infer_instance

/-- At most one open position per coin: the coins of the open positions are
pairwise distinct. -/
def coinsNodup (p : Portfolio K) : Prop :=
  (p.positions.map Position.coin).Nodup

instance (p : Portfolio K) : Decidable (coinsNodup p) := by
  unfold coinsNodup; infer_instance

/-- One apply-decision transition: the presented signal, the active strategy
and the wall-clock instant. -/
structure LedgerStep (K : Type) where
  signal : TradeSignal K
  strategy : StrategyConfig K
  now : Int

/-- Apply one ledger step. -/
def applyStep [LinearOrderedField K] [DecidableEq K] (p : Portfolio K)
    (s : LedgerStep K) : Portfolio K :=
  executeTrade p s.signal s.strategy s.now

/-- All states observed along a sequence of ledger transitions, the initial
state included. -/
def ledgerStates [LinearOrderedField K] [DecidableEq K] (p0 : Portfolio K)
    (steps : List (LedgerStep K)) : List (Portfolio K) :=
  steps.scanl applyStep p0

/-! ## Heap model of `executeTrade` (frame property)

JS mutates objects through references.  To state that `executeTrade` never
mutates its argument, the function is re-traced against an explicit heap in
which every portfolio object, every positions/trades array and every
position/trade object lives at a numeric reference.  The `{ ...portfolio }`
spread allocates fresh cells; each later assignment is a `List.set` at the
reference the source line targets, so an in-place write to a shared object
would show up as a `set` below the original heap bound. -/

/-- A portfolio object: its array-valued fields hold references. -/
structure PortfolioObj (K : Type) where
  capital : K
  initialCapital : K
  positionsRef : Nat
  tradesRef : Nat
  totalPnl : K
  totalPnlPercent : K
  lastUpdated : Int

/-- The heap: object stores indexed by reference. -/
structure Heap (K : Type) where
  portfolios : List (PortfolioObj K)
  posArrays : List (List Nat)
  tradeArrays : List (List Nat)
  posObjs : List (Position K)
  tradeObjs : List (Trade K)

variable [LinearOrderedField K]

/-- Read a portfolio object (out-of-range references never arise in use). -/
def Heap.getPortfolio (h : Heap K) (r : Nat) : PortfolioObj K :=
  h.portfolios.getD r ⟨0, 0, 0, 0, 0, 0, 0⟩

/-- Read a positions array. -/
def Heap.getPosArray (h : Heap K) (r : Nat) : List Nat :=
  h.posArrays.getD r []

/-- Read a trades array. -/
def Heap.getTradeArray (h : Heap K) (r : Nat) : List Nat :=
  h.tradeArrays.getD r []

/-- Read a position object. -/
def Heap.getPos (h : Heap K) (r : Nat) : Position K :=
  h.posObjs.getD r { coin := "", entryPrice := 0, quantity := 0, entryTime := 0 }

/-- Overwrite the portfolio object at `r`. -/
def Heap.setPortfolio (h : Heap K) (r : Nat) (o : PortfolioObj K) : Heap K :=
  { h with portfolios := h.portfolios.set r o }

/-- Overwrite the positions array at `r`. -/
def Heap.setPosArray (h : Heap K) (r : Nat) (a : List Nat) : Heap K :=
  { h with posArrays := h.posArrays.set r a }

/-- Overwrite the trades array at `r`. -/
def Heap.setTradeArray (h : Heap K) (r : Nat) (a : List Nat) : Heap K :=
  { h with tradeArrays := h.tradeArrays.set r a }

/-- Allocate a fresh position object, returning its reference. -/
def Heap.allocPos (h : Heap K) (pos : Position K) : Heap K × Nat :=
  ({ h with posObjs := h.posObjs ++ [pos] }, h.posObjs.length)

/-- Allocate a fresh trade object, returning its reference. -/
def Heap.allocTrade (h : Heap K) (t : Trade K) : Heap K × Nat :=
  ({ h with tradeObjs := h.tradeObjs ++ [t] }, h.tradeObjs.length)

variable [DecidableEq K]

/-- The shared SELL mutation of the stop-loss / take-profit sweep: credit the
proceeds, append a synthetic SELL trade, and splice index `i` out of the new
portfolio's positions array (part_005 lines 111-131). -/
def sellAtHeap (h : Heap K) (pRef : Nat) (i : Nat) (pos : Position K) (cp : K)
    (reason : String) (now : Int) : Heap K :=
  let port := h.getPortfolio pRef
  let amount := pos.quantity * cp
  let h1 := h.setPortfolio pRef { port with capital := port.capital + amount }
  let allocT := h1.allocTrade
    { id := "T" ++ toString now, coin := pos.coin, side := Sig.SELL, price := cp
      quantity := pos.quantity, total := amount, timestamp := now
      reason := reason, indicators := [] }
  let h2 := allocT.1.setTradeArray port.tradesRef
    ((allocT.1.getTradeArray port.tradesRef) ++ [allocT.2])
  h2.setPosArray port.positionsRef ((h2.getPosArray port.positionsRef).eraseIdx i)

/-- One iteration of the heap-level stop-loss / take-profit sweep at index `i`. -/
def stopCheckAtHeap (strategy : StrategyConfig K) (now : Int) (h : Heap K)
    (pRef : Nat) (i : Nat) : Heap K :=
  let port := h.getPortfolio pRef
  match (h.getPosArray port.positionsRef).get? i with
  | none => h
  | some r =>
    let pos := h.getPos r
    match pos.currentPrice with
    | none => h
    | some cp =>
      if cp = 0 then h
      else
        let pnlPct := ((cp - pos.entryPrice) / pos.entryPrice) * 100
        if pnlPct ≤ -strategy.stopLossPct then
          sellAtHeap h pRef i pos cp "Stop-loss" now
        else if strategy.takeProfitPct ≤ pnlPct then
          sellAtHeap h pRef i pos cp "Take-profit" now
        else h

/-- The downward sweep over position indices `n-1, ..., 0`. -/
def stopSweepHeap (strategy : StrategyConfig K) (now : Int) (pRef : Nat) :
    Nat → Heap K → Heap K
  | 0, h => h
  | i + 1, h => stopSweepHeap strategy now pRef i (stopCheckAtHeap strategy now h pRef i)

/-- Market value of the positions referenced by `arr`. -/
def positionsValueHeap (h : Heap K) (arr : List Nat) : K :=
  arr.foldl (fun sum r => sum + (h.getPos r).quantity * (h.getPos r).currentOrEntry) 0

/-- The totals recompute on the new portfolio object. -/
def updateTotalsHeap (h : Heap K) (pRef : Nat) (now : Int) : Heap K :=
  let port := h.getPortfolio pRef
  let totalValue := port.capital + positionsValueHeap h (h.getPosArray port.positionsRef)
  let totalPnl := totalValue - port.initialCapital
  h.setPortfolio pRef
    { port with
        totalPnl := totalPnl
        totalPnlPercent := (totalPnl / port.initialCapital) * 100
        lastUpdated := now }

/-- Sweep followed by totals recompute (tail of the non-early-return paths). -/
def finishTradeHeap (h : Heap K) (pRef : Nat) (strategy : StrategyConfig K)
    (now : Int) : Heap K :=
  updateTotalsHeap
    (stopSweepHeap strategy now pRef
      ((h.getPosArray (h.getPortfolio pRef).positionsRef).length) h) pRef now

/-- Mutation tail of the heap-level BUY path (part_005 lines 54-75): debit the
capital on the new portfolio object, allocate the new position object and push
its reference, allocate the BUY trade object and push its reference, then run
the sweep and the totals recompute. -/
def buyPathHeap (h1 : Heap K) (pRef pPosRef pTradeRef : Nat)
    (signal : TradeSignal K) (strategy : StrategyConfig K) (now : Int) : Heap K :=
  let cap := (h1.getPortfolio pRef).capital
  let maxAmount := cap * (strategy.maxPositionPct / 100)
  let amount := min maxAmount (cap * (95 / 100))
  let quantity := amount / signal.price
  let h2 := h1.setPortfolio pRef { (h1.getPortfolio pRef) with capital := cap - amount }
  let alloc := h2.allocPos
    { coin := signal.coin, entryPrice := signal.price
      quantity := quantity, entryTime := signal.timestamp }
  let h3 := alloc.1.setPosArray pPosRef ((alloc.1.getPosArray pPosRef) ++ [alloc.2])
  let allocT := h3.allocTrade
    { id := "T" ++ toString now, coin := signal.coin, side := Sig.BUY
      price := signal.price, quantity := quantity, total := amount
      timestamp := signal.timestamp
      reason := String.intercalate "; " signal.reasons
      indicators := signal.indicators.map (fun i => i.name) }
  let h4 := allocT.1.setTradeArray pTradeRef
    ((allocT.1.getTradeArray pTradeRef) ++ [allocT.2])
  finishTradeHeap h4 pRef strategy now

/-- Mutation tail of the heap-level SELL path (part_005 lines 85-102): credit
the proceeds of the position object at reference `r`, splice index `posIdx`
out of the new positions array, push the SELL trade reference, then run the
sweep and the totals recompute. -/
def sellPathHeap (h1 : Heap K) (pRef pPosRef pTradeRef posIdx r : Nat)
    (signal : TradeSignal K) (strategy : StrategyConfig K) (now : Int) : Heap K :=
  let pos := h1.getPos r
  let amount := pos.quantity * signal.price
  let h2 := h1.setPortfolio pRef
    { (h1.getPortfolio pRef) with capital := (h1.getPortfolio pRef).capital + amount }
  let h3 := h2.setPosArray pPosRef ((h2.getPosArray pPosRef).eraseIdx posIdx)
  let allocT := h3.allocTrade
    { id := "T" ++ toString now, coin := signal.coin, side := Sig.SELL
      price := signal.price, quantity := pos.quantity, total := amount
      timestamp := signal.timestamp
      reason := String.intercalate "; " signal.reasons
      indicators := signal.indicators.map (fun i => i.name) }
  let h4 := allocT.1.setTradeArray pTradeRef
    ((allocT.1.getTradeArray pTradeRef) ++ [allocT.2])
  finishTradeHeap h4 pRef strategy now

/-- Heap-level `executeTrade`: the `{ ...portfolio, positions: [...], trades:
[...] }` spread allocates a new portfolio object and fresh (element-sharing)
array copies; every subsequent source line mutates only those fresh cells.
Returns the heap and the reference of the returned portfolio. -/
def executeTradeHeap (h0 : Heap K) (pref : Nat) (signal : TradeSignal K)
    (strategy : StrategyConfig K) (now : Int) : Heap K × Nat :=
  let port := h0.getPortfolio pref
  let oldPosArr := h0.getPosArray port.positionsRef
  let oldTradeArr := h0.getTradeArray port.tradesRef
  let pPosRef := h0.posArrays.length
  let pTradeRef := h0.tradeArrays.length
  let pRef := h0.portfolios.length
  let h1 : Heap K :=
    { h0 with
        posArrays := h0.posArrays ++ [oldPosArr]
        tradeArrays := h0.tradeArrays ++ [oldTradeArr]
        portfolios := h0.portfolios ++
          [{ port with positionsRef := pPosRef, tradesRef := pTradeRef }] }
  if signal.signal = Sig.BUY then
    if ((h1.getPosArray pPosRef).find?
        (fun r => (h1.getPos r).coin == signal.coin)).isSome then
      (h1, pRef)
    else
      let cap := (h1.getPortfolio pRef).capital
      let maxAmount := cap * (strategy.maxPositionPct / 100)
      let amount := min maxAmount (cap * (95 / 100))
      if amount < 1 then (h1, pRef)
      else (buyPathHeap h1 pRef pPosRef pTradeRef signal strategy now, pRef)
  else if signal.signal = Sig.SELL then
    match (h1.getPosArray pPosRef).findIdx?
        (fun r => (h1.getPos r).coin == signal.coin) with
    | none => (h1, pRef)
    | some posIdx =>
      match (h1.getPosArray pPosRef).get? posIdx with
      | none => (h1, pRef)
      | some r =>
        (sellPathHeap h1 pRef pPosRef pTradeRef posIdx r signal strategy now, pRef)
  else
    (finishTradeHeap h1 pRef strategy now, pRef)

/-- `h` preserves everything `h0` held: each store of `h` extends the
corresponding store of `h0`. -/
def heapExtends (h0 h : Heap K) : Prop :=
  h.portfolios.take h0.portfolios.length = h0.portfolios ∧
  h.posArrays.take h0.posArrays.length = h0.posArrays ∧
  h.tradeArrays.take h0.tradeArrays.length = h0.tradeArrays ∧
  h.posObjs.take h0.posObjs.length = h0.posObjs ∧
  h.tradeObjs.take h0.tradeObjs.length = h0.tradeObjs

/-- Working invariant of the heap-level mutation tail of `executeTradeHeap`:
the heap extends the original one, the freshly allocated portfolio reference is
in range, and that portfolio's array references point at or above the original
store bounds (i.e. at the freshly allocated array copies). -/
def FrameInv (h0 h : Heap K) (pRef : Nat) : Prop :=
  heapExtends h0 h ∧
  h0.portfolios.length ≤ pRef ∧
  pRef < h.portfolios.length ∧
  h0.posArrays.length ≤ (h.getPortfolio pRef).positionsRef ∧
  h0.tradeArrays.length ≤ (h.getPortfolio pRef).tradesRef

/-! ## Concrete fixtures -/

/-- A BUY signal for BTC at price 100 (the spec's scenario input). -/
def btcBuySignal : TradeSignal ℚ :=
  { coin := "BTC", signal := Sig.BUY, score := 80, reasons := [], indicators := []
    timestamp := 0, price := 100 }

/-- A BUY signal for BTC at price 90. -/
def btcBuyAt90 : TradeSignal ℚ :=
  { coin := "BTC", signal := Sig.BUY, score := 80, reasons := [], indicators := []
    timestamp := 5, price := 90 }

/-- A portfolio holding one BTC position bought at 100 whose live price 90
breaches the conservative 5% stop-loss. -/
def stopPortfolio : Portfolio ℚ :=
  { capital := 100, initialCapital := 200
    positions := [{ coin := "BTC", entryPrice := 100, quantity := 1, entryTime := 0
                    currentPrice := some 90 }]
    trades := [], totalPnl := 0, totalPnlPercent := 0, lastUpdated := 0 }

/-- A 21-close series whose last 20 entries average 10, whose latest price is
exactly that mean, and whose window is not constant. -/
def bbWitnessSeries : List ℝ :=
  [7, 5, 15, 5, 15, 5, 15, 5, 15, 5, 15, 5, 15, 5, 15, 5, 15, 5, 15, 10, 10]

/-- A one-coin backtest request. -/
def simConfigFixture : SimulationConfig :=
  { strategy := .conservative, initialCapital := 100, coins := ["BTC"], durationDays := 30 }

/-- A data-fetch collaborator that returns no candles (every fetch failed). -/
def emptyData : String → List (OHLCV ℝ) := fun _ => []

/-- A heap holding one portfolio object with empty positions/trades arrays. -/
def heapFixture : Heap ℚ :=
  { portfolios := [{ capital := 100, initialCapital := 100, positionsRef := 0
                     tradesRef := 0, totalPnl := 0, totalPnlPercent := 0
                     lastUpdated := 0 }]
    posArrays := [[]]
    tradeArrays := [[]]
    posObjs := []
    tradeObjs := [] }

/-- A portfolio whose recorded `totalPnl` disagrees with its holdings. -/
def badPortfolio : Portfolio ℚ :=
  { capital := 100, initialCapital := 100
    positions := [{ coin := "BTC", entryPrice := 100, quantity := 1, entryTime := 0 }]
    trades := [], totalPnl := 500, totalPnlPercent := 0, lastUpdated := 0 }

end CryptoSim

namespace CryptoSim

/-! ## Ledger lemmas -/

theorem capitalInvariant_updateTotals [LinearOrderedField K] [DecidableEq K]
    (p : Portfolio K) (now : Int) : capitalInvariant (updateTotals p now) := by
  simp only [capitalInvariant, updateTotals]
  ring

theorem capitalInvariant_finishTrade [LinearOrderedField K] [DecidableEq K]
    (p : Portfolio K) (strategy : StrategyConfig K) (now : Int) :
    capitalInvariant (finishTrade p strategy now) :=
  capitalInvariant_updateTotals _ now

/-- Every `executeTrade` path either leaves the state untouched (the early
returns) or ends in the totals recompute, which restores the invariant. -/
theorem capitalInvariant_executeTrade [LinearOrderedField K] [DecidableEq K]
    (p : Portfolio K) (s : TradeSignal K) (strategy : StrategyConfig K) (now : Int)
    (h : capitalInvariant p) : capitalInvariant (executeTrade p s strategy now) := by
  unfold executeTrade
  dsimp only
  repeat' split
  all_goals first
    | exact h
    | exact capitalInvariant_finishTrade _ strategy now

/-- Claim C1 (amended): the capital-conservation equation
`capital + Σ(position.quantity × currentOrEntryPrice) = initialCapital + totalPnl`
is preserved by every `executeTrade` transition, so after any sequence of
ledger transitions from a portfolio satisfying it (a fresh portfolio in
particular) every observed state satisfies it — exactly, hence within any
floating-point tolerance.  (The unamended "for every Portfolio" fails: the
early-return paths skip the totals recompute, see `C1_counterexample`.) -/
theorem C1_capital_conservation (p0 : Portfolio ℚ) (steps : List (LedgerStep ℚ))
    (h0 : capitalInvariant p0) :
    ∀ q ∈ ledgerStates p0 steps, capitalInvariant q := by
  induction steps generalizing p0 with
  | nil =>
    intro q hq
    rw [ledgerStates, List.scanl_nil, List.mem_singleton] at hq
    exact hq ▸ h0
  | cons s rest ih =>
    intro q hq
    rw [ledgerStates, List.scanl_cons] at hq
    rcases List.mem_cons.mp hq with h | h
    · exact h ▸ h0
    · exact ih (applyStep p0 s) (capitalInvariant_executeTrade _ _ _ _ h0) q h

/-- Witness for C1: a fresh €100 portfolio satisfies the invariant and keeps it
through a BUY step. -/
theorem C1_capital_conservation_witness :
    capitalInvariant (freshPortfolio (100 : ℚ) 0) ∧
    ∀ q ∈ ledgerStates (freshPortfolio (100 : ℚ) 0)
        [{ signal := btcBuySignal, strategy := STRATEGIES ℚ .conservative, now := 0 }],
      capitalInvariant q :=
  ⟨by simp [capitalInvariant, freshPortfolio, positionsValue],
   C1_capital_conservation _ _ (by simp [capitalInvariant, freshPortfolio, positionsValue])⟩

/-- Counterexample to C1 as literally stated ("for every Portfolio"): a
portfolio whose recorded totalPnl is wrong stays wrong across a BUY transition
for a coin already held, because that early-return path skips the totals
recompute. -/
theorem C1_counterexample :
    ¬ capitalInvariant
        (executeTrade badPortfolio btcBuySignal (STRATEGIES ℚ .conservative) 0) := by
  norm_num [executeTrade, badPortfolio, btcBuySignal, STRATEGIES, capitalInvariant,
    positionsValue, Position.currentOrEntry, List.find?]

/-- Claim C2 (amended): with capital 100, no open position and a BUY signal for
BTC at price 100 under maxPositionPct 20, `executeTrade` spends
`min(100 × 20/100, 100 × 0.95) = 20`: the resulting capital is 80 (100 − 20)
and the single open position is BTC at entry price 100 with quantity 0.2.  The
95%-of-capital reserve cap does not bind at maxPositionPct 20. -/
theorem C2_buy_scenario :
    (executeTrade (freshPortfolio (100 : ℚ) 0) btcBuySignal
        (STRATEGIES ℚ .conservative) 0).capital = 80 ∧
    (executeTrade (freshPortfolio (100 : ℚ) 0) btcBuySignal
        (STRATEGIES ℚ .conservative) 0).positions =
      [{ coin := "BTC", entryPrice := 100, quantity := 1/5, entryTime := 0 }] := by
  norm_num [executeTrade, freshPortfolio, btcBuySignal, STRATEGIES, finishTrade,
    stopSweep, stopCheckAt, updateTotals, positionsValue, Position.currentOrEntry]

/-- Counterexample to C2 as stated: the claimed resulting capital 81 and
quantity 0.19 do not match the code, which spends 20 (not 19) because the
reserve cap is `min(maxAmount, 0.95 × capital)`, leaving capital 80 and
quantity 0.2. -/
theorem C2_counterexample :
    (executeTrade (freshPortfolio (100 : ℚ) 0) btcBuySignal
        (STRATEGIES ℚ .conservative) 0).positions.map Position.quantity = [1/5] ∧
    (1/5 : ℚ) ≠ 19/100 ∧
    (executeTrade (freshPortfolio (100 : ℚ) 0) btcBuySignal
        (STRATEGIES ℚ .conservative) 0).capital = 80 ∧
    (80 : ℚ) ≠ 81 := by
  norm_num [executeTrade, freshPortfolio, btcBuySignal, STRATEGIES, finishTrade,
    stopSweep, stopCheckAt, updateTotals, positionsValue, Position.currentOrEntry]

/-- A BUY signal for a coin with an existing open position takes the first
early return of `executeTrade`: the state comes back unchanged and neither the
stop-loss / take-profit sweep nor the totals recompute runs. -/
theorem executeTrade_buy_held [LinearOrderedField K] [DecidableEq K]
    (p : Portfolio K) (s : TradeSignal K) (strategy : StrategyConfig K) (now : Int)
    (hb : s.signal = Sig.BUY) (hheld : ∃ pos ∈ p.positions, pos.coin = s.coin) :
    executeTrade p s strategy now = p := by
  have hfind : (p.positions.find? (fun pos => pos.coin == s.coin)).isSome = true := by
    rw [List.find?_isSome]
    obtain ⟨pos, hmem, hcoin⟩ := hheld
    exact ⟨pos, hmem, by simp [hcoin]⟩
  unfold executeTrade
  rw [if_pos hb, if_pos hfind]

/-- The live-PnL percentage of the stop portfolio's BTC position breaches the
conservative 5% stop-loss bound. -/
theorem stopPortfolio_breaches_stopLoss :
    ((90 : ℚ) - 100) / 100 * 100 ≤ -(STRATEGIES ℚ .conservative).stopLossPct := by
  norm_num [STRATEGIES]

/-- Claim C3 (amended): in `executeTrade` the fresh BUY/SELL signal is handled
first and the stop-loss / take-profit check only afterwards; the BUY-for-held
early return skips the check entirely, so a position whose live PnL% breaches
the stop-loss is neither exited nor re-entered when a BUY signal for its coin
arrives in the same step — the state is returned unchanged. -/
theorem C3_stop_check_not_before_signal (p : Portfolio ℚ) (s : TradeSignal ℚ)
    (strategy : StrategyConfig ℚ) (now : Int) (pos : Position ℚ) (cp : ℚ)
    (hb : s.signal = Sig.BUY) (hmem : pos ∈ p.positions) (hcoin : pos.coin = s.coin)
    (_hcp : pos.currentPrice = some cp)
    (_hbreach : (cp - pos.entryPrice) / pos.entryPrice * 100 ≤ -strategy.stopLossPct) :
    executeTrade p s strategy now = p :=
  executeTrade_buy_held p s strategy now hb ⟨pos, hmem, hcoin⟩

/-- Witness for C3: the stop portfolio with a same-coin BUY signal. -/
theorem C3_stop_check_not_before_signal_witness :
    executeTrade stopPortfolio btcBuyAt90 (STRATEGIES ℚ .conservative) 5 =
      stopPortfolio :=
  C3_stop_check_not_before_signal stopPortfolio btcBuyAt90 (STRATEGIES ℚ .conservative) 5
    { coin := "BTC", entryPrice := 100, quantity := 1, entryTime := 0, currentPrice := some 90 }
    90 rfl (by simp [stopPortfolio]) rfl rfl stopPortfolio_breaches_stopLoss

/-- Counterexample to C3 as stated: the BTC position breaches the 5% stop-loss
(PnL% = −10), yet presenting a BUY signal for BTC in the same step changes
nothing — no forced SELL is recorded and the position stays open, so the
stop-loss check did not run before the signal was acted on. -/
theorem C3_counterexample :
    ((90 : ℚ) - 100) / 100 * 100 ≤ -(STRATEGIES ℚ .conservative).stopLossPct ∧
    executeTrade stopPortfolio btcBuyAt90 (STRATEGIES ℚ .conservative) 5 =
      stopPortfolio ∧
    (executeTrade stopPortfolio btcBuyAt90 (STRATEGIES ℚ .conservative) 5).trades = [] := by
  refine ⟨by norm_num [STRATEGIES], ?_, ?_⟩ <;>
    simp [executeTrade, stopPortfolio, btcBuyAt90, List.find?]

/-! ## Position-uniqueness lemmas -/

theorem updateTotals_positions [LinearOrderedField K] [DecidableEq K]
    (p : Portfolio K) (now : Int) : (updateTotals p now).positions = p.positions := rfl

theorem stopCheckAt_positions_sublist [LinearOrderedField K] [DecidableEq K]
    (strategy : StrategyConfig K) (now : Int) (p : Portfolio K) (i : Nat) :
    (stopCheckAt strategy now p i).positions.Sublist p.positions := by
  unfold stopCheckAt
  dsimp only
  repeat' split
  all_goals first
    | exact List.Sublist.refl _
    | exact List.eraseIdx_sublist _ _

theorem stopSweep_positions_sublist [LinearOrderedField K] [DecidableEq K]
    (strategy : StrategyConfig K) (now : Int) :
    ∀ (n : Nat) (p : Portfolio K),
      (stopSweep strategy now n p).positions.Sublist p.positions := by
  intro n
  induction n with
  | zero => intro p; exact List.Sublist.refl _
  | succ i ih =>
    intro p
    exact (ih _).trans (stopCheckAt_positions_sublist strategy now p i)

theorem finishTrade_positions_sublist [LinearOrderedField K] [DecidableEq K]
    (p : Portfolio K) (strategy : StrategyConfig K) (now : Int) :
    (finishTrade p strategy now).positions.Sublist p.positions := by
  unfold finishTrade
  rw [updateTotals_positions]
  exact stopSweep_positions_sublist strategy now _ p

theorem coinsNodup_finishTrade [LinearOrderedField K] [DecidableEq K]
    (p : Portfolio K) (strategy : StrategyConfig K) (now : Int)
    (h : coinsNodup p) : coinsNodup (finishTrade p strategy now) :=
  h.sublist ((finishTrade_positions_sublist p strategy now).map Position.coin)

/-- `executeTrade` preserves coin uniqueness: the BUY path only opens a
position after `find?` certifies the coin is absent, and every other path
only removes positions. -/
theorem coinsNodup_executeTrade [LinearOrderedField K] [DecidableEq K]
    (p : Portfolio K) (s : TradeSignal K) (strategy : StrategyConfig K) (now : Int)
    (h : coinsNodup p) : coinsNodup (executeTrade p s strategy now) := by
  unfold executeTrade
  dsimp only
  split
  · -- BUY
    split
    · exact h
    · split
      · exact h
      · -- BUY for a fresh coin
        rename_i hfresh _
        apply coinsNodup_finishTrade
        have hnone : p.positions.find? (fun pos => pos.coin == s.coin) = none :=
          Option.not_isSome_iff_eq_none.mp hfresh
        have hnot : ∀ pos ∈ p.positions, pos.coin ≠ s.coin := by
          intro pos hmem heq
          have hfound := List.find?_eq_none.mp hnone pos hmem
          simp [heq] at hfound
        simp only [coinsNodup, List.map_append, List.map_cons, List.map_nil]
        rw [List.nodup_append]
        refine ⟨h, List.nodup_singleton _, ?_⟩
        intro a ha hb
        obtain ⟨pos, hmem, rfl⟩ := List.mem_map.mp ha
        rw [List.mem_singleton] at hb
        exact hnot pos hmem hb
  · split
    · -- SELL
      split
      · exact h
      · split
        · exact h
        · apply coinsNodup_finishTrade
          exact h.sublist ((List.eraseIdx_sublist _ _).map Position.coin)
    · -- HOLD
      exact coinsNodup_finishTrade _ _ _ h

/-- Reachability form of the uniqueness invariant. -/
theorem coinsNodup_ledgerStates (p0 : Portfolio ℚ) (steps : List (LedgerStep ℚ))
    (h0 : coinsNodup p0) : ∀ q ∈ ledgerStates p0 steps, coinsNodup q := by
  induction steps generalizing p0 with
  | nil =>
    intro q hq
    rw [ledgerStates, List.scanl_nil, List.mem_singleton] at hq
    exact hq ▸ h0
  | cons s rest ih =>
    intro q hq
    rw [ledgerStates, List.scanl_cons] at hq
    rcases List.mem_cons.mp hq with hc | hc
    · exact hc ▸ h0
    · exact ih (applyStep p0 s) (coinsNodup_executeTrade _ _ _ _ h0) q hc

/-- Claim C4: starting from a fresh portfolio, every state reachable through
ledger transitions has at most one open position per coin; and a BUY transition
for a coin that already has an open position leaves the state unchanged (a
logged no-op, not an error). -/
theorem C4_position_uniqueness :
    (∀ (cap : ℚ) (t0 : Int) (steps : List (LedgerStep ℚ)),
        ∀ q ∈ ledgerStates (freshPortfolio cap t0) steps, coinsNodup q) ∧
    (∀ (p : Portfolio ℚ) (s : TradeSignal ℚ) (strategy : StrategyConfig ℚ) (now : Int),
        s.signal = Sig.BUY → (∃ pos ∈ p.positions, pos.coin = s.coin) →
        executeTrade p s strategy now = p) := by
  constructor
  · intro cap t0 steps
    exact coinsNodup_ledgerStates _ steps (by simp [coinsNodup, freshPortfolio])
  · intro p s strategy now hb hheld
    exact executeTrade_buy_held p s strategy now hb hheld

/-- Witness for C4: a concrete reachable trace, and a concrete held-coin BUY
no-op. -/
theorem C4_position_uniqueness_witness :
    (∀ q ∈ ledgerStates (freshPortfolio (100 : ℚ) 0)
        [{ signal := btcBuySignal, strategy := STRATEGIES ℚ .conservative, now := 0 }],
      coinsNodup q) ∧
    (btcBuyAt90.signal = Sig.BUY ∧
      (∃ pos ∈ stopPortfolio.positions, pos.coin = btcBuyAt90.coin) ∧
      executeTrade stopPortfolio btcBuyAt90 (STRATEGIES ℚ .conservative) 5 =
        stopPortfolio) :=
  ⟨C4_position_uniqueness.1 100 0 _,
   rfl,
   ⟨{ coin := "BTC", entryPrice := 100, quantity := 1, entryTime := 0
      currentPrice := some 90 }, by simp [stopPortfolio], rfl⟩,
   C4_position_uniqueness.2 stopPortfolio btcBuyAt90 (STRATEGIES ℚ .conservative) 5 rfl
     ⟨{ coin := "BTC", entryPrice := 100, quantity := 1, entryTime := 0
        currentPrice := some 90 }, by simp [stopPortfolio], rfl⟩⟩

/-- Claim C7: `computeSignal` applied to an empty list of indicator outputs
returns score 0 and signal HOLD, for every coin, price and strategy
configuration (with the data-model invariant `buyThreshold > 0 > sellThreshold`
that all three presets satisfy). -/
theorem C7_empty_indicators_hold (coin : String) (price : ℚ)
    (strategy : StrategyConfig ℚ) (now : Int)
    (hb : 0 < strategy.buyThreshold) (hs : strategy.sellThreshold < 0) :
    (computeSignal coin price [] strategy now).score = 0 ∧
    (computeSignal coin price [] strategy now).signal = Sig.HOLD := by
  unfold computeSignal
  simp only [List.length_nil, lt_irrefl, if_false, List.foldl_nil, List.map_nil]
  constructor
  · norm_num
  · rw [if_neg (not_le.mpr hb), if_neg (not_le.mpr hs)]

/-- Witness for C7: the conservative preset at an arbitrary concrete input. -/
theorem C7_empty_indicators_hold_witness :
    (0 < (STRATEGIES ℚ .conservative).buyThreshold ∧
      (STRATEGIES ℚ .conservative).sellThreshold < 0) ∧
    ((computeSignal "BTC" 42 [] (STRATEGIES ℚ .conservative) 0).score = 0 ∧
      (computeSignal "BTC" 42 [] (STRATEGIES ℚ .conservative) 0).signal = Sig.HOLD) :=
  ⟨⟨by decide, by decide⟩,
   C7_empty_indicators_hold "BTC" 42 (STRATEGIES ℚ .conservative) 0
     (by decide) (by decide)⟩

/-! ## RSI bounds -/

theorem rsi_fold1_nonneg (l : List ℚ) (init : ℚ × ℚ)
    (h1 : 0 ≤ init.1) (h2 : 0 ≤ init.2) :
    0 ≤ (List.foldl
        (fun gl c => if 0 < c then (gl.1 + c, gl.2) else (gl.1, gl.2 + |c|)) init l).1 ∧
    0 ≤ (List.foldl
        (fun gl c => if 0 < c then (gl.1 + c, gl.2) else (gl.1, gl.2 + |c|)) init l).2 := by
  induction l generalizing init with
  | nil => exact ⟨h1, h2⟩
  | cons c rest ih =>
    rw [List.foldl_cons]
    by_cases hc : 0 < c
    · rw [if_pos hc]
      exact ih _ (by show (0 : ℚ) ≤ init.1 + c; linarith) h2
    · rw [if_neg hc]
      exact ih _ h1
        (by show (0 : ℚ) ≤ init.2 + |c|; have := abs_nonneg c; linarith)

theorem rsi_fold2_nonneg (P : ℚ) (hP : 1 ≤ P) (l : List ℚ) (init : ℚ × ℚ)
    (h1 : 0 ≤ init.1) (h2 : 0 ≤ init.2) :
    0 ≤ (List.foldl
        (fun gl c => ((gl.1 * (P - 1) + (if 0 < c then c else 0)) / P,
                      (gl.2 * (P - 1) + (if c < 0 then |c| else 0)) / P))
        init l).1 ∧
    0 ≤ (List.foldl
        (fun gl c => ((gl.1 * (P - 1) + (if 0 < c then c else 0)) / P,
                      (gl.2 * (P - 1) + (if c < 0 then |c| else 0)) / P))
        init l).2 := by
  have hP0 : (0 : ℚ) < P := by linarith
  induction l generalizing init with
  | nil => exact ⟨h1, h2⟩
  | cons c rest ih =>
    rw [List.foldl_cons]
    refine ih _ ?_ ?_
    · show (0 : ℚ) ≤ (init.1 * (P - 1) + (if 0 < c then c else 0)) / P
      have hx : (0 : ℚ) ≤ if 0 < c then c else 0 := by
        split
        · linarith
        · exact le_rfl
      have hnum : (0 : ℚ) ≤ init.1 * (P - 1) + (if 0 < c then c else 0) := by
        nlinarith
      exact div_nonneg hnum hP0.le
    · show (0 : ℚ) ≤ (init.2 * (P - 1) + (if c < 0 then |c| else 0)) / P
      have hx : (0 : ℚ) ≤ if c < 0 then |c| else 0 := by
        split
        · exact abs_nonneg c
        · exact le_rfl
      have hnum : (0 : ℚ) ≤ init.2 * (P - 1) + (if c < 0 then |c| else 0) := by
        nlinarith
      exact div_nonneg hnum hP0.le

/-- The final RSI formula is bounded whenever the averaged gain and loss are
nonnegative. -/
theorem rsi_formula_bounds (g l : ℚ) (hg : 0 ≤ g) (hl : 0 ≤ l) :
    0 ≤ 100 - 100 / (1 + (if l = 0 then (100 : ℚ) else g / l)) ∧
    100 - 100 / (1 + (if l = 0 then (100 : ℚ) else g / l)) ≤ 100 := by
  have hrs : 0 ≤ (if l = 0 then (100 : ℚ) else g / l) := by
    split
    · norm_num
    · exact div_nonneg hg hl
  set rs := if l = 0 then (100 : ℚ) else g / l with hrsdef
  have h1 : (0 : ℚ) < 1 + rs := by linarith
  constructor
  · have hle : 100 / (1 + rs) ≤ 100 := by
      rw [div_le_iff₀ h1]; nlinarith
    linarith
  · have hpos : 0 < 100 / (1 + rs) := div_pos (by norm_num) h1
    linarith

/-- Claim C9: for a series of at least 15 prices the RSI value computed by
`calcRSI` lies in [0, 100]. -/
theorem C9_rsi_bounds (prices : List ℚ) (_hlen : 15 ≤ prices.length) :
    (calcRSI prices 14).value = IndicatorValue.scalar (rsiRaw prices 14) ∧
    0 ≤ rsiRaw prices 14 ∧ rsiRaw prices 14 ≤ 100 := by
  refine ⟨?_, ?_⟩
  · unfold calcRSI
    dsimp only
    repeat' split
    all_goals rfl
  · unfold rsiRaw
    dsimp only
    have hseed := rsi_fold1_nonneg ((priceChanges prices).take 14) (0, 0)
      le_rfl le_rfl
    have havgs := rsi_fold2_nonneg ((14 : ℕ) : ℚ) (by norm_num)
      ((priceChanges prices).drop 14)
      ((((priceChanges prices).take 14).foldl
          (fun gl c => if 0 < c then (gl.1 + c, gl.2) else (gl.1, gl.2 + |c|))
          (0, 0)).1 / ((14 : ℕ) : ℚ),
       (((priceChanges prices).take 14).foldl
          (fun gl c => if 0 < c then (gl.1 + c, gl.2) else (gl.1, gl.2 + |c|))
          (0, 0)).2 / ((14 : ℕ) : ℚ))
      (div_nonneg hseed.1 (by norm_num)) (div_nonneg hseed.2 (by norm_num))
    exact rsi_formula_bounds _ _ havgs.1 havgs.2

/-- Witness for C9: a concrete 15-price series. -/
theorem C9_rsi_bounds_witness :
    15 ≤ (List.replicate 15 (1 : ℚ)).length ∧
    (0 ≤ rsiRaw (List.replicate 15 (1 : ℚ)) 14 ∧
      rsiRaw (List.replicate 15 (1 : ℚ)) 14 ≤ 100) :=
  ⟨by decide, (C9_rsi_bounds (List.replicate 15 (1 : ℚ)) (by decide)).2⟩

/-! ## Bollinger %B -/

/-- Claim C8 (amended): for a series of at least 21 closes whose latest price
equals the computed middle band, %B is 0.5 — provided the 20-sample population
standard deviation is nonzero.  (The unamended claim fails on a constant
series, where upper = lower and the JS computation is 0/0 = NaN; the embedding
evaluates that division to 0; see `C8_counterexample`.) -/
theorem C8_pctB_half (prices : List ℝ) (_hlen : 21 ≤ prices.length)
    (hmid : bbCurrent prices = bbMiddle prices 20)
    (hsd : bbSd prices 20 ≠ 0) :
    bbPctB prices 20 2 = 1 / 2 := by
  unfold bbPctB
  dsimp only
  rw [hmid]
  rw [show bbMiddle prices 20 - (bbMiddle prices 20 - 2 * bbSd prices 20) =
        2 * bbSd prices 20 by ring,
      show bbMiddle prices 20 + 2 * bbSd prices 20 -
          (bbMiddle prices 20 - 2 * bbSd prices 20) = 4 * bbSd prices 20 by ring]
  rw [div_eq_iff (by exact mul_ne_zero (by norm_num) hsd)]
  ring

theorem foldl_add_f_replicate (f : ℝ → ℝ) (n : Nat) (a : ℝ) (x : ℝ) :
    (List.replicate n a).foldl (fun s p => s + f p) x = x + n * f a := by
  induction n generalizing x with
  | zero => simp
  | succ m ih =>
    rw [List.replicate_succ, List.foldl_cons, ih]
    push_cast
    ring

/-- Counterexample to C8 as stated: on a constant series the band width is
zero, so %B is 0/0 — NaN in JS, 0 in the embedding — not 0.5. -/
theorem C8_counterexample :
    bbPctB (List.replicate 21 (1 : ℝ)) 20 2 = 0 ∧ (0 : ℝ) ≠ 1 / 2 := by
  have hfold : ∀ x : ℝ, (List.replicate 20 (1 : ℝ)).foldl (· + ·) x = x + 20 := by
    intro x
    simpa using foldl_add_f_replicate (fun p => p) 20 1 x
  have hsma : calcSMA (List.replicate 21 (1 : ℝ)) 20 = [1, 1] := by
    simp only [calcSMA, List.length_replicate]
    rw [show (21 + 1 - 20 : Nat) = 2 from rfl,
        show List.range 2 = [0, 1] from rfl]
    simp [List.drop_replicate, List.take_replicate, hfold]
    norm_num
  have hmid : bbMiddle (List.replicate 21 (1 : ℝ)) 20 = 1 := by
    unfold bbMiddle
    rw [hsma]
    rfl
  have hsd : bbSd (List.replicate 21 (1 : ℝ)) 20 = 0 := by
    unfold bbSd
    dsimp only
    rw [hmid]
    rw [show lastN 20 (List.replicate 21 (1 : ℝ)) = List.replicate 20 1 by
      simp [lastN, List.drop_replicate]]
    rw [show ((List.replicate 20 (1 : ℝ)).foldl (fun sum p => sum + (p - 1) ^ 2) 0) =
          0 + 20 * ((1 : ℝ) - 1) ^ 2 from foldl_add_f_replicate (fun p => (p - 1) ^ 2) 20 1 0]
    norm_num
  constructor
  · unfold bbPctB
    dsimp only
    rw [hmid, hsd]
    norm_num
  · norm_num

/-- The witness series meets every hypothesis of the amended C8: 21 closes,
latest price equal to the middle band, nonzero standard deviation. -/
theorem bbWitnessSeries_facts :
    21 ≤ bbWitnessSeries.length ∧
    bbCurrent bbWitnessSeries = bbMiddle bbWitnessSeries 20 ∧
    bbSd bbWitnessSeries 20 ≠ 0 := by
  have hsma : calcSMA bbWitnessSeries 20 = [197 / 20, 10] := by
    simp only [calcSMA, bbWitnessSeries, List.length_cons, List.length_nil]
    norm_num [List.range_succ]
  have hmid : bbMiddle bbWitnessSeries 20 = 10 := by
    simp [bbMiddle, hsma]
  refine ⟨by decide, ?_, ?_⟩
  · rw [hmid]
    simp [bbCurrent, bbWitnessSeries]
  · unfold bbSd
    dsimp only
    rw [hmid]
    rw [show lastN 20 bbWitnessSeries =
          [5, 15, 5, 15, 5, 15, 5, 15, 5, 15, 5, 15, 5, 15, 5, 15, 5, 15, 10, 10]
        from by simp [lastN, bbWitnessSeries]]
    rw [show ([(5 : ℝ), 15, 5, 15, 5, 15, 5, 15, 5, 15, 5, 15, 5, 15, 5, 15, 5, 15, 10,
          10].foldl (fun sum p => sum + (p - 10) ^ 2) 0) = 450 from by norm_num]
    rw [show (450 : ℝ) / (20 : Nat) = 22.5 from by norm_num]
    rw [Ne, Real.sqrt_eq_zero (by norm_num)]
    norm_num

/-- Witness for C8: the nonconstant 21-close series. -/
theorem C8_pctB_half_witness :
    (21 ≤ bbWitnessSeries.length ∧
      bbCurrent bbWitnessSeries = bbMiddle bbWitnessSeries 20 ∧
      bbSd bbWitnessSeries 20 ≠ 0) ∧
    bbPctB bbWitnessSeries 20 2 = 1 / 2 :=
  ⟨bbWitnessSeries_facts,
   C8_pctB_half bbWitnessSeries bbWitnessSeries_facts.1 bbWitnessSeries_facts.2.1
     bbWitnessSeries_facts.2.2⟩

/-! ## Backtest abort on insufficient data -/

/-- Claim C5: when the minimum candle count across the requested coins is below
the 30-candle warm-up threshold, `runSimulation` fails with the
insufficient-data error rather than completing.  The check precedes the replay
loop and the portfolio used by the run is freshly reset before it, so no
ledger transition (and no portfolio mutation) has occurred at the point of
failure — the error result carries no portfolio at all. -/
theorem C5_insufficient_data (config : SimulationConfig)
    (coinData : String → List (OHLCV ℝ)) (now : Int) (m : Nat)
    (hmin : (config.coins.map (fun c => (coinData c).length)).min? = some m)
    (hm : m < 30) :
    runSimulation config coinData now = Except.error "Insufficient historical data" := by
  unfold runSimulation
  dsimp only
  rw [hmin]
  dsimp only
  rw [if_pos hm]

/-- Witness for C5: one requested coin whose fetch returned no candles. -/
theorem C5_insufficient_data_witness :
    ((simConfigFixture.coins.map (fun c => (emptyData c).length)).min? = some 0 ∧
      0 < 30) ∧
    runSimulation simConfigFixture emptyData 0 =
      Except.error "Insufficient historical data" :=
  ⟨⟨by decide, by decide⟩,
   C5_insufficient_data simConfigFixture emptyData 0 0 (by decide) (by decide)⟩

/-! ## Win-rate characterization -/

/-- `find?` on a reversed list returns the last element satisfying the
predicate: an element at some index `j` after which no element satisfies it. -/
theorem find?_reverse_eq_some_iff {α : Type} (l : List α) (p : α → Bool) (b : α) :
    l.reverse.find? p = some b ↔
      ∃ j, l.get? j = some b ∧ p b = true ∧
        ∀ k b', j < k → l.get? k = some b' → p b' = false := by
  induction l using List.reverseRecOn with
  | nil => simp
  | append_singleton l a ih =>
    rw [List.reverse_append, List.reverse_singleton, List.singleton_append]
    by_cases hp : p a = true
    · rw [List.find?_cons_of_pos _ hp]
      constructor
      · intro hsome
        have hab : a = b := by simpa using hsome
        subst hab
        refine ⟨l.length, List.get?_concat_length l a, hp, ?_⟩
        intro k b' hk hget
        have hnone : (l ++ [a]).get? k = none :=
          List.get?_eq_none.mpr (by simp; omega)
        rw [hnone] at hget
        cases hget
      · rintro ⟨j, hj, hpb, hall⟩
        rcases Nat.lt_trichotomy j l.length with hlt | heq | hgt
        · have hpa := hall l.length a hlt (List.get?_concat_length l a)
          rw [hpa] at hp
          cases hp
        · subst heq
          rw [List.get?_concat_length] at hj
          exact hj
        · have hnone : (l ++ [a]).get? j = none :=
            List.get?_eq_none.mpr (by simp; omega)
          rw [hnone] at hj
          cases hj
    · rw [List.find?_cons_of_neg _ hp, ih]
      rw [Bool.not_eq_true] at hp
      constructor
      · rintro ⟨j, hj, hpb, hall⟩
        rcases List.get?_eq_some.mp hj with ⟨hjl, -⟩
        refine ⟨j, by rw [List.get?_append hjl]; exact hj, hpb, ?_⟩
        intro k b' hk hget
        rcases Nat.lt_trichotomy k l.length with hlt | heq | hgt
        · rw [List.get?_append hlt] at hget
          exact hall k b' hk hget
        · subst heq
          rw [List.get?_concat_length] at hget
          have hba : a = b' := by simpa using hget
          rw [← hba]
          exact hp
        · have hnone : (l ++ [a]).get? k = none :=
            List.get?_eq_none.mpr (by simp; omega)
          rw [hnone] at hget
          cases hget
      · rintro ⟨j, hj, hpb, hall⟩
        have hjne : j ≠ l.length := by
          intro heq
          subst heq
          rw [List.get?_concat_length] at hj
          have hab : a = b := by simpa using hj
          rw [← hab] at hpb
          rw [hpb] at hp
          cases hp
        have hjlt : j < l.length := by
          rcases Nat.lt_or_ge j l.length with h | h
          · exact h
          · exfalso
            have hnone : (l ++ [a]).get? j = none :=
              List.get?_eq_none.mpr (by simp; omega)
            rw [hnone] at hj
            cases hj
        refine ⟨j, by rw [← List.get?_append hjlt]; exact hj, hpb, ?_⟩
        intro k b' hk hget
        rcases List.get?_eq_some.mp hget with ⟨hkl, -⟩
        exact hall k b' hk (by rw [List.get?_append hkl]; exact hget)

/-- JS `array.filter` with an index argument, counted through `enum`, equals a
count over the index range. -/
theorem enum_filter_length_eq {α : Type} (G : Nat → α → Bool) (l : List α) :
    (l.enum.filter (fun q => G q.1 q.2)).length =
      ((List.range l.length).filter (fun i =>
        match l.get? i with
        | some x => G i x
        | none => false)).length := by
  induction l using List.reverseRecOn with
  | nil => simp
  | append_singleton l a ih =>
    have henum : (l ++ [a]).enum = l.enum ++ [(l.length, a)] := by
      simp [List.enum, List.enumFrom_append]
    have hlen : (l ++ [a]).length = l.length + 1 := by simp
    rw [henum, List.filter_append, List.length_append, hlen, List.range_succ,
        List.filter_append, List.length_append]
    have hcong : (List.range l.length).filter (fun i =>
          match (l ++ [a]).get? i with
          | some x => G i x
          | none => false) =
        (List.range l.length).filter (fun i =>
          match l.get? i with
          | some x => G i x
          | none => false) := by
      apply List.filter_congr
      intro i hi
      rw [List.mem_range] at hi
      rw [List.get?_append hi]
    have hlast : ([(l.length, a)].filter (fun q => G q.1 q.2)).length =
        ([l.length].filter (fun i =>
          match (l ++ [a]).get? i with
          | some x => G i x
          | none => false)).length := by
      simp only [List.filter, List.get?_concat_length]
      cases G l.length a <;> rfl
    rw [hcong, hlast, ih]

/-- The code's win test at a SELL index agrees with the spec's
"most recent prior BUY for the same coin, strictly higher SELL price"
condition. -/
theorem tradeIsWin_iff (arr : List (Trade ℚ)) (i : Nat) (t : Trade ℚ)
    (ht : arr.get? i = some t) :
    tradeIsWin arr i t = true ↔ isWinningIndex arr i := by
  unfold tradeIsWin
  rw [Bool.and_eq_true, decide_eq_true_eq]
  constructor
  · rintro ⟨hside, hmatch⟩
    rcases hfind : priorBuy arr i t.coin with _ | b
    · rw [hfind] at hmatch
      cases hmatch
    · rw [hfind] at hmatch
      have hprice : b.price < t.price := of_decide_eq_true hmatch
      unfold priorBuy at hfind
      rw [find?_reverse_eq_some_iff] at hfind
      obtain ⟨j, hj, hpb, hall⟩ := hfind
      rcases List.get?_eq_some.mp hj with ⟨hjl, -⟩
      rw [List.length_take] at hjl
      have hji : j < i := lt_of_lt_of_le hjl (min_le_left _ _)
      have hjarr : arr.get? j = some b := by
        rw [← List.get?_take hji]
        exact hj
      rw [Bool.and_eq_true] at hpb
      obtain ⟨hbcoin, hbside⟩ := hpb
      refine ⟨t, ht, hside, j, b, hji, hjarr,
        of_decide_eq_true hbside, eq_of_beq hbcoin, hprice, ?_⟩
      intro k b' hjk hki hgetk hcontra
      obtain ⟨hbs', hbc'⟩ := hcontra
      have hgtk : (arr.take i).get? k = some b' := by
        rw [List.get?_take hki]
        exact hgetk
      have hfalse := hall k b' hjk hgtk
      simp [hbc', hbs'] at hfalse
  · rintro ⟨t', ht', hside, j, b, hji, hjb, hbside, hbcoin, hprice, hall⟩
    have hteq : t' = t := Option.some.inj (ht'.symm.trans ht)
    subst hteq
    have hfound : priorBuy arr i t'.coin = some b := by
      unfold priorBuy
      rw [find?_reverse_eq_some_iff]
      refine ⟨j, ?_, ?_, ?_⟩
      · rw [List.get?_take hji]
        exact hjb
      · rw [Bool.and_eq_true]
        exact ⟨beq_iff_eq.mpr hbcoin, decide_eq_true hbside⟩
      · intro k b' hjk hgetk
        rcases List.get?_eq_some.mp hgetk with ⟨hkl, -⟩
        rw [List.length_take] at hkl
        have hki : k < i := lt_of_lt_of_le hkl (min_le_left _ _)
        have hkarr : arr.get? k = some b' := by
          rw [← List.get?_take hki]
          exact hgetk
        have hnot := hall k b' hjk hki hkarr
        by_cases hcoin' : b'.coin = t'.coin
        · by_cases hside' : b'.side = Sig.BUY
          · exact absurd ⟨hside', hcoin'⟩ hnot
          · simp [hside']
        · simp [hcoin']
    refine ⟨hside, ?_⟩
    rw [hfound]
    exact decide_eq_true hprice

open Classical in
/-- The code's filtered win count equals the spec-side count of winning
indices. -/
theorem winningTrades_length_eq (arr : List (Trade ℚ)) :
    (winningTrades arr).length = winCountSpec arr := by
  unfold winningTrades winCountSpec
  rw [List.length_map, enum_filter_length_eq (fun i x => tradeIsWin arr i x) arr,
      List.countP_eq_length_filter]
  congr 1
  apply List.filter_congr
  intro i hi
  rw [List.mem_range] at hi
  rcases hgi : arr.get? i with _ | t
  · exact absurd (List.get?_eq_none.mp hgi) (by omega)
  · have hiff := tradeIsWin_iff arr i t hgi
    cases hd : decide (isWinningIndex arr i) with
    | false =>
      show tradeIsWin arr i t = false
      exact Bool.eq_false_iff.mpr (fun hh => (of_decide_eq_false hd) (hiff.mp hh))
    | true =>
      show tradeIsWin arr i t = true
      exact hiff.mpr (of_decide_eq_true hd)

/-- Claim C6: the reported win rate is wins divided by total SELL trades times
100, where a SELL counts as a win iff its price strictly exceeds the price of
the most recent prior BUY for the same coin (so an equal price, or a SELL with
no prior BUY, is a loss), and the win rate is 0 when there are no SELL
trades. -/
theorem C6_win_rate (arr : List (Trade ℚ)) :
    winRate arr =
      if (sellTrades arr).length = 0 then 0
      else ((winCountSpec arr : ℚ) / ((sellTrades arr).length : ℚ)) * 100 := by
  unfold winRate
  by_cases h : (sellTrades arr).length = 0
  · rw [if_pos h, if_neg (by omega)]
  · rw [if_neg h, if_pos (Nat.pos_of_ne_zero h), winningTrades_length_eq]

/-! ## Heap frame lemmas -/

theorem take_set_of_le {α : Type} (l : List α) (i n : Nat) (a : α) (hn : n ≤ i) :
    (l.set i a).take n = l.take n := by
  apply List.ext_get?
  intro m
  by_cases hm : m < n
  · rw [List.get?_take hm, List.get?_take hm,
      List.get?_set_ne _ _ (show i ≠ m by omega)]
  · have h1 : ((l.set i a).take n).length ≤ m := by
      rw [List.length_take, List.length_set]
      omega
    have h2 : ((l.take n).length) ≤ m := by
      rw [List.length_take]
      omega
    rw [List.get?_eq_none.mpr h1, List.get?_eq_none.mpr h2]

theorem getD_eq_of_take_eq {α : Type} {l l' : List α} (h : l'.take l.length = l)
    (i : Nat) (hi : i < l.length) (d : α) : l'.getD i d = l.getD i d := by
  have hg : l'.get? i = l.get? i := by
    conv_rhs => rw [← h]
    rw [List.get?_take hi]
  simp [List.getD_eq_getElem?_getD, ← List.get?_eq_getElem?, hg]

theorem length_le_of_take_eq {α : Type} {l l' : List α} (h : l'.take l.length = l) :
    l.length ≤ l'.length := by
  have := congrArg List.length h
  rw [List.length_take] at this
  omega

theorem FrameInv_setPortfolio [LinearOrderedField K] [DecidableEq K]
    (h0 h : Heap K) (pRef : Nat) (o : PortfolioObj K)
    (inv : FrameInv h0 h pRef)
    (hpos : o.positionsRef = (h.getPortfolio pRef).positionsRef)
    (htr : o.tradesRef = (h.getPortfolio pRef).tradesRef) :
    FrameInv h0 (h.setPortfolio pRef o) pRef := by
  obtain ⟨⟨e1, e2, e3, e4, e5⟩, hlo, hhi, hp, ht⟩ := inv
  have hget : (h.setPortfolio pRef o).getPortfolio pRef = o := by
    have hx : h.portfolios.get? pRef = some (h.portfolios.get ⟨pRef, hhi⟩) :=
      List.get?_eq_some.mpr ⟨hhi, rfl⟩
    have hsome : (h.portfolios.set pRef o).get? pRef = some o := by
      rw [List.get?_set_eq, hx]
      rfl
    simp [Heap.setPortfolio, Heap.getPortfolio, List.getD_eq_getElem?_getD,
      ← List.get?_eq_getElem?, hsome]
  refine ⟨⟨?_, e2, e3, e4, e5⟩, hlo, ?_, ?_, ?_⟩
  · calc (h.portfolios.set pRef o).take h0.portfolios.length
        = h.portfolios.take h0.portfolios.length := take_set_of_le _ _ _ _ hlo
      _ = h0.portfolios := e1
  · show pRef < (h.portfolios.set pRef o).length
    rw [List.length_set]
    exact hhi
  · rw [hget, hpos]
    exact hp
  · rw [hget, htr]
    exact ht

theorem FrameInv_setPosArray [LinearOrderedField K] [DecidableEq K]
    (h0 h : Heap K) (pRef r : Nat) (a : List Nat)
    (inv : FrameInv h0 h pRef) (hr : h0.posArrays.length ≤ r) :
    FrameInv h0 (h.setPosArray r a) pRef := by
  obtain ⟨⟨e1, e2, e3, e4, e5⟩, hlo, hhi, hp, ht⟩ := inv
  refine ⟨⟨e1, ?_, e3, e4, e5⟩, hlo, hhi, hp, ht⟩
  calc (h.posArrays.set r a).take h0.posArrays.length
      = h.posArrays.take h0.posArrays.length := take_set_of_le _ _ _ _ hr
    _ = h0.posArrays := e2

theorem FrameInv_setTradeArray [LinearOrderedField K] [DecidableEq K]
    (h0 h : Heap K) (pRef r : Nat) (a : List Nat)
    (inv : FrameInv h0 h pRef) (hr : h0.tradeArrays.length ≤ r) :
    FrameInv h0 (h.setTradeArray r a) pRef := by
  obtain ⟨⟨e1, e2, e3, e4, e5⟩, hlo, hhi, hp, ht⟩ := inv
  refine ⟨⟨e1, e2, ?_, e4, e5⟩, hlo, hhi, hp, ht⟩
  calc (h.tradeArrays.set r a).take h0.tradeArrays.length
      = h.tradeArrays.take h0.tradeArrays.length := take_set_of_le _ _ _ _ hr
    _ = h0.tradeArrays := e3

theorem FrameInv_allocPos [LinearOrderedField K] [DecidableEq K]
    (h0 h : Heap K) (pRef : Nat) (pos : Position K)
    (inv : FrameInv h0 h pRef) : FrameInv h0 (h.allocPos pos).1 pRef := by
  obtain ⟨⟨e1, e2, e3, e4, e5⟩, hlo, hhi, hp, ht⟩ := inv
  refine ⟨⟨e1, e2, e3, ?_, e5⟩, hlo, hhi, hp, ht⟩
  rw [show (h.allocPos pos).1.posObjs = h.posObjs ++ [pos] from rfl,
    List.take_append_of_le_length (length_le_of_take_eq e4)]
  exact e4

theorem FrameInv_allocTrade [LinearOrderedField K] [DecidableEq K]
    (h0 h : Heap K) (pRef : Nat) (t : Trade K)
    (inv : FrameInv h0 h pRef) : FrameInv h0 (h.allocTrade t).1 pRef := by
  obtain ⟨⟨e1, e2, e3, e4, e5⟩, hlo, hhi, hp, ht⟩ := inv
  refine ⟨⟨e1, e2, e3, e4, ?_⟩, hlo, hhi, hp, ht⟩
  rw [show (h.allocTrade t).1.tradeObjs = h.tradeObjs ++ [t] from rfl,
    List.take_append_of_le_length (length_le_of_take_eq e5)]
  exact e5

theorem FrameInv_sellAtHeap [LinearOrderedField K] [DecidableEq K]
    (h0 h : Heap K) (pRef i : Nat) (pos : Position K) (cp : K)
    (reason : String) (now : Int) (inv : FrameInv h0 h pRef) :
    FrameInv h0 (sellAtHeap h pRef i pos cp reason now) pRef := by
  unfold sellAtHeap
  dsimp only
  exact FrameInv_setPosArray h0 _ pRef _ _
    (FrameInv_setTradeArray h0 _ pRef _ _
      (FrameInv_allocTrade h0 _ pRef _
        (FrameInv_setPortfolio h0 h pRef _ inv rfl rfl))
      inv.2.2.2.2)
    inv.2.2.2.1

theorem FrameInv_stopCheckAtHeap [LinearOrderedField K] [DecidableEq K]
    (h0 h : Heap K) (pRef : Nat) (strategy : StrategyConfig K) (now : Int)
    (i : Nat) (inv : FrameInv h0 h pRef) :
    FrameInv h0 (stopCheckAtHeap strategy now h pRef i) pRef := by
  unfold stopCheckAtHeap
  dsimp only
  repeat' split
  all_goals first
    | exact inv
    | exact FrameInv_sellAtHeap h0 h pRef _ _ _ _ now inv

theorem FrameInv_stopSweepHeap [LinearOrderedField K] [DecidableEq K]
    (h0 : Heap K) (pRef : Nat) (strategy : StrategyConfig K) (now : Int) :
    ∀ (n : Nat) (h : Heap K), FrameInv h0 h pRef →
      FrameInv h0 (stopSweepHeap strategy now pRef n h) pRef := by
  intro n
  induction n with
  | zero => intro h inv; exact inv
  | succ i ih =>
    intro h inv
    exact ih _ (FrameInv_stopCheckAtHeap h0 h pRef strategy now i inv)

theorem FrameInv_updateTotalsHeap [LinearOrderedField K] [DecidableEq K]
    (h0 h : Heap K) (pRef : Nat) (now : Int) (inv : FrameInv h0 h pRef) :
    FrameInv h0 (updateTotalsHeap h pRef now) pRef := by
  unfold updateTotalsHeap
  dsimp only
  exact FrameInv_setPortfolio h0 h pRef _ inv rfl rfl

theorem FrameInv_finishTradeHeap [LinearOrderedField K] [DecidableEq K]
    (h0 h : Heap K) (pRef : Nat) (strategy : StrategyConfig K) (now : Int)
    (inv : FrameInv h0 h pRef) :
    FrameInv h0 (finishTradeHeap h pRef strategy now) pRef := by
  unfold finishTradeHeap
  exact FrameInv_updateTotalsHeap h0 _ pRef now
    (FrameInv_stopSweepHeap h0 pRef strategy now _ h inv)

theorem frameInv_start [LinearOrderedField K] [DecidableEq K] (h0 : Heap K)
    (arr1 arr2 : List Nat) (port : PortfolioObj K) :
    FrameInv h0
      { h0 with
          posArrays := h0.posArrays ++ [arr1]
          tradeArrays := h0.tradeArrays ++ [arr2]
          portfolios := h0.portfolios ++
            [{ port with
                positionsRef := h0.posArrays.length
                tradesRef := h0.tradeArrays.length }] }
      h0.portfolios.length := by
  have hget : ({ h0 with
      posArrays := h0.posArrays ++ [arr1]
      tradeArrays := h0.tradeArrays ++ [arr2]
      portfolios := h0.portfolios ++
        [{ port with
            positionsRef := h0.posArrays.length
            tradesRef := h0.tradeArrays.length }] } : Heap K).getPortfolio
        h0.portfolios.length =
      { port with
          positionsRef := h0.posArrays.length
          tradesRef := h0.tradeArrays.length } := by
    simp [Heap.getPortfolio, List.getD_eq_getElem?_getD, ← List.get?_eq_getElem?,
      List.get?_concat_length]
  refine ⟨⟨?_, ?_, ?_, ?_, ?_⟩, le_refl _, ?_, ?_, ?_⟩
  · rw [show ({ h0 with
        posArrays := h0.posArrays ++ [arr1]
        tradeArrays := h0.tradeArrays ++ [arr2]
        portfolios := h0.portfolios ++
          [{ port with
              positionsRef := h0.posArrays.length
              tradesRef := h0.tradeArrays.length }] } : Heap K).portfolios =
      h0.portfolios ++ [{ port with
          positionsRef := h0.posArrays.length
          tradesRef := h0.tradeArrays.length }] from rfl]
    rw [List.take_append_of_le_length (le_refl _), List.take_length]
  · show (h0.posArrays ++ [arr1]).take h0.posArrays.length = h0.posArrays
    rw [List.take_append_of_le_length (le_refl _), List.take_length]
  · show (h0.tradeArrays ++ [arr2]).take h0.tradeArrays.length = h0.tradeArrays
    rw [List.take_append_of_le_length (le_refl _), List.take_length]
  · exact List.take_length _
  · exact List.take_length _
  · show h0.portfolios.length < (h0.portfolios ++ [_]).length
    simp
  · rw [hget]
  · rw [hget]

theorem FrameInv_buyPathHeap [LinearOrderedField K] [DecidableEq K]
    (h0 h1 : Heap K) (pRef pPosRef pTradeRef : Nat) (signal : TradeSignal K)
    (strategy : StrategyConfig K) (now : Int) (inv : FrameInv h0 h1 pRef)
    (hp : h0.posArrays.length ≤ pPosRef) (ht : h0.tradeArrays.length ≤ pTradeRef) :
    FrameInv h0 (buyPathHeap h1 pRef pPosRef pTradeRef signal strategy now) pRef := by
  unfold buyPathHeap
  dsimp only
  exact FrameInv_finishTradeHeap h0 _ pRef strategy now
    (FrameInv_setTradeArray h0 _ pRef _ _
      (FrameInv_allocTrade h0 _ pRef _
        (FrameInv_setPosArray h0 _ pRef _ _
          (FrameInv_allocPos h0 _ pRef _
            (FrameInv_setPortfolio h0 h1 pRef _ inv rfl rfl))
          hp))
      ht)

theorem FrameInv_sellPathHeap [LinearOrderedField K] [DecidableEq K]
    (h0 h1 : Heap K) (pRef pPosRef pTradeRef posIdx r : Nat) (signal : TradeSignal K)
    (strategy : StrategyConfig K) (now : Int) (inv : FrameInv h0 h1 pRef)
    (hp : h0.posArrays.length ≤ pPosRef) (ht : h0.tradeArrays.length ≤ pTradeRef) :
    FrameInv h0 (sellPathHeap h1 pRef pPosRef pTradeRef posIdx r signal strategy now)
      pRef := by
  unfold sellPathHeap
  dsimp only
  exact FrameInv_finishTradeHeap h0 _ pRef strategy now
    (FrameInv_setTradeArray h0 _ pRef _ _
      (FrameInv_allocTrade h0 _ pRef _
        (FrameInv_setPosArray h0 _ pRef _ _
          (FrameInv_setPortfolio h0 h1 pRef _ inv rfl rfl)
          hp))
      ht)

theorem getPortfolio_eq_of_heapExtends [LinearOrderedField K] [DecidableEq K]
    (h0 h : Heap K) (pref : Nat)
    (he : heapExtends h0 h) (hp : pref < h0.portfolios.length) :
    h.getPortfolio pref = h0.getPortfolio pref := by
  unfold Heap.getPortfolio
  exact getD_eq_of_take_eq he.1 pref hp _

/-- Claim C10: the heap-level `executeTrade` never mutates anything the caller
already held: every object store of the resulting heap extends the original
one (so the argument portfolio object, its positions/trades arrays and every
position/trade object reachable from it are bit-identical afterwards), and the
returned portfolio is the freshly allocated copy; in particular the argument
portfolio object itself is unchanged. -/
theorem C10_no_input_mutation (h0 : Heap ℚ) (pref : Nat) (signal : TradeSignal ℚ)
    (strategy : StrategyConfig ℚ) (now : Int) :
    heapExtends h0 (executeTradeHeap h0 pref signal strategy now).1 ∧
    (executeTradeHeap h0 pref signal strategy now).2 = h0.portfolios.length ∧
    (pref < h0.portfolios.length →
      (executeTradeHeap h0 pref signal strategy now).1.getPortfolio pref =
        h0.getPortfolio pref) := by
  have key : heapExtends h0 (executeTradeHeap h0 pref signal strategy now).1 ∧
      (executeTradeHeap h0 pref signal strategy now).2 = h0.portfolios.length := by
    unfold executeTradeHeap
    dsimp only
    have hstart := frameInv_start h0
      (h0.getPosArray (h0.getPortfolio pref).positionsRef)
      (h0.getTradeArray (h0.getPortfolio pref).tradesRef)
      (h0.getPortfolio pref)
    repeat' split
    all_goals refine ⟨?_, rfl⟩
    all_goals first
      | exact hstart.1
      | exact (FrameInv_buyPathHeap h0 _ _ _ _ signal strategy now hstart
          (le_refl _) (le_refl _)).1
      | exact (FrameInv_sellPathHeap h0 _ _ _ _ _ _ signal strategy now hstart
          (le_refl _) (le_refl _)).1
      | exact (FrameInv_finishTradeHeap h0 _ _ strategy now hstart).1
  exact ⟨key.1, key.2,
    fun hp => getPortfolio_eq_of_heapExtends h0 _ pref key.1 hp⟩

/-- Witness for C10: a one-portfolio heap through a BUY. -/
theorem C10_no_input_mutation_witness :
    (0 < heapFixture.portfolios.length) ∧
    ((executeTradeHeap heapFixture 0 (btcBuySignal) (STRATEGIES ℚ .conservative) 0).1.getPortfolio 0 =
      heapFixture.getPortfolio 0) :=
  ⟨by decide,
   (C10_no_input_mutation heapFixture 0 btcBuySignal (STRATEGIES ℚ .conservative) 0).2.2
     (by decide)⟩

end CryptoSim
